import Mathlib

/-!
Verification development for the DNSMatrix geo-distributed probe service.

This file gives a shallow embedding of the dispatch / outbox / inbox /
result-stream pipeline of the backend and of the agent-side check runner,
translated from the Go source:

  * `backend/internal/service/auth.go`        (Geo.Lookup)
  * `backend/internal/api/http/handler/request.go` (StreamResults, allTerminal)
  * `backend/internal/msg/inbox/inbox.go`     (Subscriber.worker / process)
  * `backend/internal/msg/outbox/outbox.go`   (Publisher.sendAndMark)
  * `backend/internal/repository/*`           (SQL-level row semantics)
  * the RequestService.CreateRequest dispatcher
  * `agent/internal/service/service.go`       (ParseTask, normalizeCheckParams,
                                               RunCheck and the probe runners)

External effects (database success or failure, bus publish outcomes, network
probe outcomes, `json.Unmarshal` of opaque byte payloads) are made explicit
inputs of the embedded functions; the control flow and data shaping mirror
the Go code statement by statement.
-/

namespace DNSMatrix

/-- UUIDs are modelled as natural numbers. -/
abbrev UUID := Nat

/-- Model of `uuid.FromBytes`: succeeds exactly on a 16-byte slice
(the value is the big-endian fold of the bytes). -/
def uuidFromBytes (k : List Nat) : Option UUID :=
  if k.length = 16 then some (k.foldl (fun acc b => acc * 256 + b) 0) else none

/- ### String primitives

The Go code uses `strings.ToUpper` / `ToLower` / `TrimSpace` / `Split` /
`HasPrefix` / `HasSuffix` and `strconv.Atoi`. They are embedded here as
structural functions over the character list of a `String` (ASCII data, which
is all these call sites see). -/

/-- Model of `strings.ToUpper`. -/
def strToUpper (s : String) : String := ⟨s.data.map Char.toUpper⟩

/-- Model of `strings.ToLower`. -/
def strToLower (s : String) : String := ⟨s.data.map Char.toLower⟩

/-- ASCII whitespace (the fragment of Unicode space relevant here). -/
def isSpaceChar (c : Char) : Bool := c = ' ' || c = '\t' || c = '\n' || c = '\r'

/-- Model of `strings.TrimSpace`. -/
def strTrim (s : String) : String :=
  ⟨((s.data.dropWhile isSpaceChar).reverse.dropWhile isSpaceChar).reverse⟩

/-- Split a character list on a separator character (model of `strings.Split`
for the one-character separators used by the agent). -/
def splitChar (sep : Char) : List Char → List (List Char)
  | [] => [[]]
  | c :: cs =>
    match splitChar sep cs with
    | [] => [[]]
    | h :: t => if c = sep then [] :: h :: t else (c :: h) :: t

/-- Decimal digits to a number, or `none` on empty or non-digit input. -/
def natOfDigits (cs : List Char) : Option Nat :=
  match cs with
  | [] => none
  | _ =>
    if cs.all Char.isDigit then
      some (cs.foldl (fun a c => a * 10 + (c.toNat - Char.toNat '0')) 0)
    else none

/-- Model of `strconv.Atoi`: optional sign followed by decimal digits. -/
def strAtoi (s : String) : Option Int :=
  match s.data with
  | [] => none
  | '-' :: cs => (natOfDigits cs).map (fun n => -(n : Int))
  | '+' :: cs => (natOfDigits cs).map (fun n => (n : Int))
  | cs => (natOfDigits cs).map (fun n => (n : Int))

/-- Whether a string starts with the given character. -/
def strStartsWithChar (s : String) (c : Char) : Bool :=
  match s.data with
  | [] => false
  | c0 :: _ => c0 = c

/-- Whether a string ends with the given character. -/
def strEndsWithChar (s : String) (c : Char) : Bool :=
  match s.data.reverse with
  | [] => false
  | c0 :: _ => c0 = c

/-- Drop the first character. -/
def strDropFirst (s : String) : String := ⟨s.data.drop 1⟩

/-- Drop the last character. -/
def strDropLast (s : String) : String := ⟨s.data.dropLast⟩

/-- A JSON-like value, modelling the `map[string]interface{}` params that the
agent receives (JSON numbers restricted to integers, which is what the
check params use). -/
inductive JVal where
  | jstr (s : String)
  | jnum (n : Int)
  | jbool (b : Bool)
  | jarr (xs : List JVal)
  | jobj (fields : List (String × JVal))
  | jnull

/-- A `map[string]interface{}` params object: an association list. -/
abbrev Params := List (String × JVal)

/-- Key lookup in a params object (Go map indexing `c.Params[k]`). -/
def lookupP (ps : Params) (k : String) : Option JVal :=
  (ps.find? (fun kv => kv.1 = k)).map (fun kv => kv.2)

/-- Setting a key in a params object (Go `c.Params[k] = v`). -/
def setP (ps : Params) (k : String) (v : JVal) : Params :=
  if ps.any (fun kv => kv.1 = k) then
    ps.map (fun kv => if kv.1 = k then (k, v) else kv)
  else
    ps ++ [(k, v)]

/-- Removing a key from a params object (Go `delete(c.Params, k)`). -/
def delP (ps : Params) (k : String) : Params :=
  ps.filter (fun kv => kv.1 ≠ k)

/- ## GeoResolver (`auth.go`: `Geo.Lookup`) -/

/-- Result record of `Geo.Lookup` (`GeoInfo` in `auth.go`). -/
structure GeoInfo where
  asn : Int
  cc : String
  continent : String
  region : String
deriving Repr, DecidableEq

/-- What the offline databases return for a non-nil IP: the ASN record (if the
ASN database is present and the lookup succeeds) and the country record
(ISO country code and continent code). A `none` field models a missing
database or a failed record lookup, which `Lookup` silently skips. -/
structure IPGeoData where
  ipStr : String
  asnRec : Option Int
  countryRec : Option (String × String)
deriving Repr, DecidableEq

/-- Shallow embedding of `Geo.Lookup` (`auth.go` lines 440-472). The argument
is `none` for a nil `net.IP`. -/
def geoLookup (ip : Option IPGeoData) : GeoInfo :=
  match ip with
  | none => { asn := 0, cc := "", continent := "", region := "EU" }
  | some d =>
    let asn : Int := match d.asnRec with
      | some n => n
      | none => 0
    let (cc, continent) : String × String := match d.countryRec with
      | some (c, k) => (c, if k ≠ "" then k else "")
      | none => ("", "")
    let u := strToUpper continent
    let region : String :=
      if u = "US" then "US"
      else if u = "AS" then "APAC"
      else if u = "OC" then "APAC"
      else "EU"
    { asn := asn, cc := cc, continent := continent, region := region }

/-- Claim-side (spec-worded) region function for the refinement statement of
C10: APAC iff the upper-cased continent code is AS or OC, US only on the
literal string US, EU otherwise (and for a nil IP). -/
def regionClaim (ip : Option IPGeoData) : String :=
  match ip with
  | none => "EU"
  | some d =>
    let continent : String := match d.countryRec with
      | some (_, k) => if k ≠ "" then k else ""
      | none => ""
    let u := strToUpper continent
    if u = "AS" ∨ u = "OC" then "APAC"
    else if u = "US" then "US"
    else "EU"

/-- The upper-cased continent code that `geoLookup` switches on. -/
def upperContinent (ip : Option IPGeoData) : String :=
  strToUpper (geoLookup ip).continent

/- ## Result stream (`handler/request.go`: `StreamResults`, `allTerminal`) -/

/-- One row of the aggregated result view returned by
`GetResultsByRequestID` (`model.CheckResultResponse`; payload kept as raw
bytes). -/
structure CheckResultResponse where
  requestId : UUID
  agentId : UUID
  agentRegion : String
  typ : String
  status : String
  payload : List Nat
deriving Repr, DecidableEq

/-- Shallow embedding of `allTerminal` (`request.go` lines 242-255): false on
an empty list, false as soon as one item's status is outside the literal
switch cases SUCCESS / FAILED / TIMEOUT / CANCELLED, true otherwise. -/
def allTerminal (list : List CheckResultResponse) : Bool :=
  if list.length = 0 then false
  else list.all (fun it =>
    match it.status with
    | "SUCCESS" => true
    | "FAILED" => true
    | "TIMEOUT" => true
    | "CANCELLED" => true
    | _ => false)

/-- A frame written to the result socket (`wsMessage` with its four types). -/
inductive WsFrame where
  | snapshot (data : List CheckResultResponse)
  | update (data : List CheckResultResponse)
  | done (data : Option (List CheckResultResponse))
  | errorF (e : String)
deriving Repr, DecidableEq

/-- One iteration of the `StreamResults` ticker loop (`request.go` lines
198-238). The SHA-256 content hash of the marshalled list is modelled by the
list itself (the hash is used only as a content fingerprint for duplicate
suppression). Returns the frames written on this tick, the new stored hash,
and whether the loop returned (socket closed). A `.error` query result models
`GetResultsByRequestID` failing. -/
def streamTick (lastHash : Option (List CheckResultResponse))
    (query : Except String (List CheckResultResponse)) :
    List WsFrame × Option (List CheckResultResponse) × Bool :=
  match query with
  | .error e => ([.errorF e], lastHash, false)
  | .ok results =>
    let (deltaFrames, newHash) : List WsFrame × Option (List CheckResultResponse) :=
      match lastHash with
      | none => ([.snapshot results], some results)
      | some prev =>
        if results ≠ prev then ([.update results], some results)
        else ([], some prev)
    if allTerminal results then (deltaFrames ++ [.done (some results)], newHash, true)
    else (deltaFrames, newHash, false)

/- ## Inbox subscriber (`inbox/inbox.go`: `Subscriber.worker`, `Subscriber.process`) -/

/-- The fields of the decoded `model.CheckResultFromAgent` that the ingest
path uses. -/
structure AgentResultMsg where
  taskId : UUID
  typ : String
  ok : Bool
  startedAt : Nat
deriving Repr, DecidableEq

/-- One `messages.inbox_messages` row. -/
structure InboxMessageRow where
  id : UUID
  topic : String
  payload : List Nat
deriving Repr, DecidableEq

/-- One `domain.check_results` row. -/
structure CheckResultRow where
  id : UUID
  assignmentId : UUID
  typ : String
  status : String
  startedAt : Nat
  finishedAt : Nat
  payload : List Nat
deriving Repr, DecidableEq

/-- The state the ingest transaction touches. -/
structure IngestDB where
  inbox : List InboxMessageRow
  results : List CheckResultRow
deriving Repr, DecidableEq

/-- Environment of one consumed result message: the raw key and value, the
outcome of `json.Unmarshal` on the value (`none` models a decode error),
the configured topic, the success of each database step, the fresh
`uuid.New()` for the check-result row and the `time.Now()` used for
`finishedAt`. -/
structure InboxEnv where
  key : List Nat
  value : List Nat
  decoded : Option AgentResultMsg
  topic : String
  beginOk : Bool
  insertMsgOk : Bool
  insertResOk : Bool
  commitOk : Bool
  freshId : UUID
  now : Nat

/-- Status string the ingest writes (`inbox.go` lines 151-161): DONE for
`ok=true`, FAILED for `ok=false`. -/
def ingestStatus (ok : Bool) : String :=
  if ok then "DONE" else "FAILED"

/-- `InboxRepository.InsertMessage` row effect: `ON CONFLICT DO NOTHING`
keyed on `id`. -/
def insertInboxIdempotent (rows : List InboxMessageRow) (m : InboxMessageRow) :
    List InboxMessageRow :=
  if rows.any (fun r => r.id = m.id) then rows else rows ++ [m]

/-- The database state after a successful ingest transaction commits: the
inbox row inserted idempotently and the check-result row appended, with
`assignmentId` set to the task id from the decoded envelope (not the key)
and `payload` set to the raw message bytes, atomically. -/
def commitIngest (db : IngestDB) (env : InboxEnv) (mid : UUID) (r : AgentResultMsg) :
    IngestDB :=
  { inbox := insertInboxIdempotent db.inbox { id := mid, topic := env.topic, payload := env.value },
    results := db.results ++
      [{ id := env.freshId, assignmentId := r.taskId, typ := r.typ,
         status := ingestStatus r.ok, startedAt := r.startedAt,
         finishedAt := env.now, payload := env.value }] }

/-- Shallow embedding of `Subscriber.process` (`inbox.go` lines 130-189):
decode the envelope, open a transaction, insert the inbox row and the
check-result row, commit; any failure rolls the transaction back, leaving
the database unchanged. Returns the new database state and the error
result. -/
def ingestProcess (db : IngestDB) (env : InboxEnv) (mid : UUID) :
    IngestDB × Except String Unit :=
  match env.decoded with
  | none => (db, .error "failed to unmarshal checkResult")
  | some r =>
    if !env.beginOk then (db, .error "error begin transaction")
    else if !env.insertMsgOk then (db, .error "failed to insert message")
    else if !env.insertResOk then (db, .error "failed to insert checkResult")
    else if !env.commitOk then (db, .error "failed to commit transaction")
    else (commitIngest db env mid r, .ok ())

/-- Shallow embedding of the per-message body of `Subscriber.worker`
(`inbox.go` lines 103-126): if the key does not parse as a 16-byte UUID the
worker logs and `continue`s — `msg.Mark()` is NOT reached; otherwise it runs
`process` (logging any error) and then calls `msg.Mark()` unconditionally.
Returns the new database state and whether the offset was acknowledged. -/
def inboxWorkerStep (db : IngestDB) (env : InboxEnv) : IngestDB × Bool :=
  match uuidFromBytes env.key with
  | none => (db, false)
  | some mid => ((ingestProcess db env mid).1, true)

/- ## Outbox publisher (`outbox/outbox.go`, repository SQL) -/

/-- One `messages.outbox_messages` row. -/
structure OutboxRow where
  id : UUID
  topic : String
  payload : List Nat
  createdAt : Nat
  sent : Bool
  sentAt : Option Nat
deriving Repr, DecidableEq

/-- `OutboxRepository.UpdateAsSent`: `SET sent = true, sent_at = NOW() WHERE
id = $1` — both fields are set in the same update. -/
def updateAsSent (rows : List OutboxRow) (messageID : UUID) (now : Nat) :
    List OutboxRow :=
  rows.map (fun r => if r.id = messageID then { r with sent := true, sentAt := some now } else r)

/-- Insertion sort by `createdAt`, modelling `ORDER BY created_at`. -/
def insertByCreatedAt (r : OutboxRow) : List OutboxRow → List OutboxRow
  | [] => [r]
  | x :: xs => if r.createdAt ≤ x.createdAt then r :: x :: xs else x :: insertByCreatedAt r xs

/-- Sort a row list by `createdAt` ascending. -/
def sortByCreatedAt (rows : List OutboxRow) : List OutboxRow :=
  rows.foldr insertByCreatedAt []

/-- `OutboxRepository.SelectUnsentBatch`: `WHERE sent = false ORDER BY
created_at LIMIT $1`. -/
def selectUnsentBatch (rows : List OutboxRow) (batchSize : Nat) : List OutboxRow :=
  (sortByCreatedAt (rows.filter (fun r => !r.sent))).take batchSize

/-- Shallow embedding of `Publisher.sendAndMark` (`outbox.go` lines 110-126):
publish to the bus first; on publish failure return with the database
untouched; on publish success run `UpdateAsSent` (whose own failure also
leaves the row unsent). `pubOk` / `updOk` are the outcomes of the two
external calls. -/
def sendAndMark (rows : List OutboxRow) (message : OutboxRow)
    (pubOk updOk : Bool) (now : Nat) : List OutboxRow × Except String Unit :=
  if !pubOk then (rows, .error "failed to push message")
  else if !updOk then (rows, .error "failed to update as sent")
  else (updateAsSent rows message.id now, .ok ())

/-- The worker loop draining one batch in order: thread the row state through
`sendAndMark` and record which rows were actually published to the bus. -/
def pubLoop (pubOk updOk : Nat → Bool) (now : Nat) :
    List OutboxRow → Nat → List OutboxRow → List OutboxRow × List OutboxRow
  | [], _, st => (st, [])
  | msg :: rest, i, st =>
    let stepped := sendAndMark st msg (pubOk i) (updOk i) now
    let fin := pubLoop pubOk updOk now rest (i + 1) stepped.1
    (fin.1, (if pubOk i then [msg] else []) ++ fin.2)

/-- One poll tick of the publisher: select the unsent batch, then have the
workers publish each row in order (`Publisher.Run` / `worker`). Returns the
final row state and the list of rows for which a bus publish succeeded
(`pubOk` / `updOk` indexed by position in the batch). -/
def publisherTick (rows : List OutboxRow) (batchSize : Nat)
    (pubOk updOk : Nat → Bool) (now : Nat) : List OutboxRow × List OutboxRow :=
  pubLoop pubOk updOk now (selectUnsentBatch rows batchSize) 0 rows

/- ## Dispatcher (`RequestService.CreateRequest`) -/

/-- One check of an incoming `TaskMessageRequest` (type plus opaque params). -/
structure DTaskCheck where
  typ : String
  params : Params

/-- The request body of `POST /check/task` (`model.TaskMessageRequest`). -/
structure TaskMessageRequest where
  target : String
  timeoutSeconds : Int
  broadcast : Bool
  checks : List DTaskCheck

/-- The `clientContext` of the task envelope. -/
structure ClientContext where
  ip : String
  asn : Int
  region : String
  continent : String
  userAgent : String

/-- The task envelope (`model.TaskMessage`) put on the bus; `metadata` is the
two-entry map `origin -> api, region -> clientRegion` built by
`CreateRequest`. -/
structure TaskMessage where
  id : UUID
  target : String
  timeoutSeconds : Int
  clientContext : ClientContext
  checks : List DTaskCheck
  metadataOrigin : String
  metadataRegion : String

/-- One `domain.requests` row as inserted by the dispatcher (`requestJSON`
holds the canonical serialized envelope, modelled by the envelope value
itself; `status`, `created_at`, `updated_at` come from DB defaults and are
not modelled). -/
structure RequestRow where
  id : UUID
  target : String
  timeoutSeconds : Int
  broadcast : Bool
  clientIP : String
  userAgent : String
  clientASN : Int
  clientCC : String
  clientRegion : String
  checksTypes : List String
  requestJSON : TaskMessage

/-- One `domain.assignments` row as inserted by the dispatcher. -/
structure AssignmentRow where
  id : UUID
  requestId : UUID
  agentId : UUID
  agentRegion : String
  outboxId : UUID

/-- One `domain.agents` row. -/
structure Agent where
  id : UUID
  region : String
  asn : Int
  online : Bool

/-- One outbox row as the dispatcher inserts it (`json.Marshal` of the
envelope is modelled by the envelope value itself, so payload equality
means byte equality of the serialized form). -/
structure DispatchOutboxRow where
  id : UUID
  topic : String
  payload : TaskMessage
  createdAt : Nat

/-- The tables the dispatch transaction touches. -/
structure DispatchDB where
  requests : List RequestRow
  assignments : List AssignmentRow
  outbox : List DispatchOutboxRow

/-- A database step of `CreateRequest` that can be made to fail (at most one
per run; the value names the step). -/
inductive FailPoint where
  | beginTx
  | insertRequest
  | selectAgents
  | selectAgent
  | insertOutbox (i : Nat)
  | insertAssignment (i : Nat)
  | commitTx
deriving Repr, DecidableEq

/-- Environment of one `CreateRequest` call: the request body, the client IP
(`none` models a nil `net.IP`, e.g. empty or unparsable `ClientIP()`), the
`User-Agent`, the contents of `domain.agents`, the `uuid.New()` results
(request id plus a seed for the per-row ids), the injected database failure
(if any) and the clock. -/
structure DispatchEnv where
  req : TaskMessageRequest
  ip : Option IPGeoData
  ua : String
  agents : List Agent
  requestId : UUID
  idSeed : Nat
  dbFail : Option FailPoint
  now : Nat

/-- Go `net.IP.String()` renders a nil IP as the literal string shown here. -/
def clientIPStr (ip : Option IPGeoData) : String :=
  match ip with
  | none => "<nil>"
  | some d => d.ipStr

/-- The task envelope `CreateRequest` builds (part_001 lines 67-93). -/
def taskEnvelopeOf (env : DispatchEnv) : TaskMessage :=
  let gi := geoLookup env.ip
  { id := env.requestId,
    target := env.req.target,
    timeoutSeconds := env.req.timeoutSeconds,
    clientContext :=
      { ip := clientIPStr env.ip, asn := gi.asn, region := gi.region,
        continent := gi.continent, userAgent := env.ua },
    checks := env.req.checks.map (fun c => { typ := c.typ, params := c.params }),
    metadataOrigin := "api",
    metadataRegion := gi.region }

/-- The request row `CreateRequest` builds (part_001 lines 100-115). -/
def requestRowOf (env : DispatchEnv) : RequestRow :=
  let gi := geoLookup env.ip
  { id := env.requestId,
    target := env.req.target,
    timeoutSeconds := env.req.timeoutSeconds,
    broadcast := env.req.broadcast,
    clientIP := clientIPStr env.ip,
    userAgent := env.ua,
    clientASN := gi.asn,
    clientCC := gi.cc,
    clientRegion := gi.region,
    checksTypes := env.req.checks.map (fun c => c.typ),
    requestJSON := taskEnvelopeOf env }

/-- The broadcast fan-out loop (part_001 lines 138-163): for each known agent,
in order, insert one outbox row with topic `hosts-check-<agentRegion>` and
payload the serialized envelope, then one assignment referencing it.
Fresh `uuid.New()` ids are drawn from the seed, two per agent. A failure
of either insert aborts the loop with that step's error. -/
def fanout (payloadMsg : TaskMessage) (reqId : UUID) (seed : Nat)
    (fail : Option FailPoint) (now : Nat) :
    List Agent → Nat → Except String (List DispatchOutboxRow × List AssignmentRow)
  | [], _ => .ok ([], [])
  | agent :: rest, i =>
    if fail = some (.insertOutbox i) then .error "failed to insert outbox message"
    else if fail = some (.insertAssignment i) then .error "failed to insert assignment"
    else
      match fanout payloadMsg reqId seed fail now rest (i + 1) with
      | .error e => .error e
      | .ok (obs, asgs) =>
        let outboxId := seed + 2 * i
        .ok ({ id := outboxId, topic := "hosts-check-" ++ agent.region,
               payload := payloadMsg, createdAt := now } :: obs,
             { id := seed + 2 * i + 1, requestId := reqId, agentId := agent.id,
               agentRegion := agent.region, outboxId := outboxId } :: asgs)

/-- `AgentRepository.SelectAgentByRegion`: `SELECT ... FROM domain.agents
WHERE region = $1` read through `QueryRow` — the first matching row, or a
no-rows error. -/
def selectAgentByRegion (agents : List Agent) (region : String) : Option Agent :=
  (agents.filter (fun a => a.region = region)).head?

/-- Shallow embedding of `RequestService.CreateRequest` (part_001 lines
62-220). All inserts run inside one transaction; on any failed step the
deferred rollback discards them, so the database is returned unchanged
together with the surfaced error; only a successful commit makes the new
rows visible. -/
def createRequest (db : DispatchDB) (env : DispatchEnv) :
    DispatchDB × Except String RequestRow :=
  let gi := geoLookup env.ip
  let msg := taskEnvelopeOf env
  let reqRow := requestRowOf env
  if env.req.broadcast then
    if env.dbFail = some .beginTx then (db, .error "failed to begin transaction")
    else if env.dbFail = some .insertRequest then (db, .error "failed to insert request")
    else if env.dbFail = some .selectAgents then (db, .error "failed to select agents")
    else
      match fanout msg env.requestId env.idSeed env.dbFail env.now env.agents 0 with
      | .error e => (db, .error e)
      | .ok (obs, asgs) =>
        if env.dbFail = some .commitTx then (db, .error "error committing transaction")
        else ({ requests := db.requests ++ [reqRow],
                assignments := db.assignments ++ asgs,
                outbox := db.outbox ++ obs }, .ok reqRow)
  else
    if env.dbFail = some .beginTx then (db, .error "failed to begin transaction")
    else if env.dbFail = some .insertRequest then (db, .error "failed to insert request")
    else if env.dbFail = some .selectAgent then (db, .error "failed to select agent")
    else
      match selectAgentByRegion env.agents gi.region with
      | none => (db, .error "failed to select agent")
      | some agent =>
        if env.dbFail = some (.insertOutbox 0) then (db, .error "failed to insert outbox message")
        else if env.dbFail = some (.insertAssignment 0) then (db, .error "failed to insert assignment")
        else if env.dbFail = some .commitTx then (db, .error "error committing transaction")
        else
          let outboxId := env.idSeed
          let ob : DispatchOutboxRow :=
            { id := outboxId, topic := "hosts-check-" ++ gi.region,
              payload := msg, createdAt := env.now }
          let asg : AssignmentRow :=
            { id := env.idSeed + 1, requestId := env.requestId, agentId := agent.id,
              agentRegion := agent.region, outboxId := outboxId }
          ({ requests := db.requests ++ [reqRow],
             assignments := db.assignments ++ [asg],
             outbox := db.outbox ++ [ob] }, .ok reqRow)

/-- Whether an `Except` is a success, as a boolean. -/
def exceptOk {ε α : Type} (e : Except ε α) : Bool :=
  match e with
  | .ok _ => true
  | .error _ => false

/- ## Agent check executor (`agent/internal/service/service.go`) -/

/-- Model of `parseRange2Int` (service.go lines 276-293): trim, strip one
leading and one trailing square bracket, split on the comma, `Atoi` both
trimmed parts. -/
def parseRange2Int (s : String) : Except String (Int × Int) :=
  let s1 := strTrim s
  let s2 := if strStartsWithChar s1 '[' then strDropFirst s1 else s1
  let s3 := if strEndsWithChar s2 ']' then strDropLast s2 else s2
  match (splitChar ',' s3.data).map String.mk with
  | [p1, p2] =>
    match strAtoi (strTrim p1), strAtoi (strTrim p2) with
    | some a, some b => .ok (a, b)
    | _, _ => .error "invalid syntax"
  | _ => .error "range must be like [a,b]"

/-- Model of `toInt` (service.go lines 295-307): JSON numbers convert,
anything else becomes 0. -/
def toIntJ (v : JVal) : Int :=
  match v with
  | .jnum n => n
  | _ => 0

/-- Normalized HTTP check params (`model.HTTPParams`). -/
structure HTTPParams where
  scheme : String
  path : String
  headers : Option (List (String × String))
  expectedStatusRange : Int × Int
  followRedirects : Bool
  maxBodyBytes : Int
deriving Repr, DecidableEq

/-- Normalized ping params. -/
structure PingParams where
  count : Int
  intervalMs : Int
deriving Repr, DecidableEq

/-- Normalized TCP params. -/
structure TCPParams where
  port : Int
  connectTimeoutMs : Int
deriving Repr, DecidableEq

/-- Normalized traceroute params (the agent's `model.TracerouteParams`,
including the `paris` flag, which the runner never reads but the loose
decode validates). -/
structure TracerouteParams where
  mode : String
  port : Int
  maxHops : Int
  paris : Bool
deriving Repr, DecidableEq

/-- Normalized DNS params. -/
structure DNSParams where
  records : List String
  resolver : String
deriving Repr, DecidableEq

/-- A check after `normalizeCheckParams`: its kind-specific typed params
(the Go code stores the struct back into the params map via `mustToMap`
and decodes it again in `runOne`; that round trip is the identity on these
structs, so the normalized check is modelled by the struct itself). -/
inductive NCheck where
  | http (p : HTTPParams)
  | ping (p : PingParams)
  | tcp (p : TCPParams)
  | traceroute (p : TracerouteParams)
  | dns (p : DNSParams)
deriving Repr, DecidableEq

/-- Outcomes of `json.Unmarshal` applied to JSON text embedded in a string
param (the `headers` brace-string form and the `records` string form). These
stand for `encoding/json` on opaque strings, which the embedding does not
re-implement. -/
structure JsonDec where
  headersOf : String → Option (List (String × String))
  strListOf : String → Option (List String)

/-- Field decode of a string struct field (`encoding/json`: absent or null
leaves the zero value, a non-string value is a type error). -/
def getString (ps : Params) (k : String) : Except String String :=
  match lookupP ps k with
  | none => .ok ""
  | some .jnull => .ok ""
  | some (.jstr s) => .ok s
  | some _ => .error ("cannot unmarshal field " ++ k)

/-- Field decode of an int struct field. -/
def getInt (ps : Params) (k : String) : Except String Int :=
  match lookupP ps k with
  | none => .ok 0
  | some .jnull => .ok 0
  | some (.jnum n) => .ok n
  | some _ => .error ("cannot unmarshal field " ++ k)

/-- Field decode of a bool struct field. -/
def getBool (ps : Params) (k : String) : Except String Bool :=
  match lookupP ps k with
  | none => .ok false
  | some .jnull => .ok false
  | some (.jbool b) => .ok b
  | some _ => .error ("cannot unmarshal field " ++ k)

/-- Field decode of a `[]string` struct field. -/
def getStrList (ps : Params) (k : String) : Except String (List String) :=
  match lookupP ps k with
  | none => .ok []
  | some .jnull => .ok []
  | some (.jarr xs) =>
    match xs.mapM (fun v => match v with | .jstr s => some s | _ => none) with
    | some ss => .ok ss
    | none => .error ("cannot unmarshal field " ++ k)
  | some _ => .error ("cannot unmarshal field " ++ k)

/-- Field decode of a `map[string]string` struct field. -/
def getHeaders (ps : Params) (k : String) : Except String (Option (List (String × String))) :=
  match lookupP ps k with
  | none => .ok none
  | some .jnull => .ok none
  | some (.jobj fs) =>
    match fs.mapM (fun kv => match kv.2 with | .jstr s => some (kv.1, s) | _ => none) with
    | some m => .ok (some m)
    | none => .error ("cannot unmarshal field " ++ k)
  | some _ => .error ("cannot unmarshal field " ++ k)

/-- Field decode of a `[2]int` struct field (`encoding/json` array rules:
extra JSON elements are discarded, missing ones leave the zero value,
non-number elements are a type error). -/
def getRange2 (ps : Params) (k : String) : Except String (Int × Int) :=
  match lookupP ps k with
  | none => .ok (0, 0)
  | some .jnull => .ok (0, 0)
  | some (.jarr xs) =>
    match (xs.take 2).mapM (fun v => match v with | .jnum n => some n | _ => none) with
    | some [] => .ok (0, 0)
    | some [a] => .ok (a, 0)
    | some [a, b] => .ok (a, b)
    | some _ => .error ("cannot unmarshal field " ++ k)
    | none => .error ("cannot unmarshal field " ++ k)
  | some _ => .error ("cannot unmarshal field " ++ k)

/-- The `http` branch of `normalizeCheckParams` (service.go lines 149-199):
pre-normalize `expectedStatusRange` (string form parsed, 2-element array
coerced, absent defaulted to 200..299, other shapes left alone), clean up
`headers` given as a string, then decode loosely into `HTTPParams` and apply
the scheme / path / zero-range defaults. -/
def normalizeHTTP (jd : JsonDec) (ps : Params) : Except String HTTPParams := do
  let ps1 ←
    match lookupP ps "expectedStatusRange" with
    | some (.jstr s) =>
      match parseRange2Int s with
      | .error e => Except.error ("expectedStatusRange: " ++ e)
      | .ok (a, b) => Except.ok (setP ps "expectedStatusRange" (.jarr [.jnum a, .jnum b]))
    | some (.jarr vv) =>
      match vv with
      | [v1, v2] =>
        Except.ok (setP ps "expectedStatusRange" (.jarr [.jnum (toIntJ v1), .jnum (toIntJ v2)]))
      | _ => Except.error "expectedStatusRange must have 2 elements"
    | some _ => Except.ok ps
    | none => Except.ok (setP ps "expectedStatusRange" (.jarr [.jnum 200, .jnum 299]))
  let ps2 :=
    match lookupP ps1 "headers" with
    | some (.jstr s) =>
      let str := strTrim s
      if str = "" then delP ps1 "headers"
      else if strStartsWithChar str '\x7b' then
        match jd.headersOf str with
        | some m => setP ps1 "headers" (.jobj (m.map (fun kv => (kv.1, .jstr kv.2))))
        | none => delP ps1 "headers"
      else delP ps1 "headers"
    | _ => ps1
  let scheme ← getString ps2 "scheme"
  let path ← getString ps2 "path"
  let headers ← getHeaders ps2 "headers"
  let range ← getRange2 ps2 "expectedStatusRange"
  let follow ← getBool ps2 "followRedirects"
  let maxBody ← getInt ps2 "maxBodyBytes"
  let scheme := if scheme = "" then "https" else scheme
  let path := if path = "" then "/" else path
  let range := if range = (0, 0) then (200, 299) else range
  return { scheme := scheme, path := path, headers := headers,
           expectedStatusRange := range, followRedirects := follow,
           maxBodyBytes := maxBody }

/-- The `ping` branch: loose decode plus count / interval defaults. -/
def normalizePing (ps : Params) : Except String PingParams := do
  let count ← getInt ps "count"
  let interval ← getInt ps "intervalMs"
  let count := if count ≤ 0 then 4 else count
  let interval := if interval ≤ 0 then 1000 else interval
  return { count := count, intervalMs := interval }

/-- The `tcp` branch: loose decode plus the connect-timeout default. -/
def normalizeTCP (ps : Params) : Except String TCPParams := do
  let port ← getInt ps "port"
  let timeoutMs ← getInt ps "connectTimeoutMs"
  let timeoutMs := if timeoutMs ≤ 0 then 3000 else timeoutMs
  return { port := port, connectTimeoutMs := timeoutMs }

/-- The `traceroute` branch: loose decode (including the unused but
type-checked `paris` bool) plus maxHops / mode defaults. -/
def normalizeTraceroute (ps : Params) : Except String TracerouteParams := do
  let mode ← getString ps "mode"
  let port ← getInt ps "port"
  let maxHops ← getInt ps "maxHops"
  let paris ← getBool ps "paris"
  let maxHops := if maxHops ≤ 0 then 30 else maxHops
  let mode := if mode = "" then "udp" else mode
  return { mode := mode, port := port, maxHops := maxHops, paris := paris }

/-- The `dns` branch: a string-valued `records` param that parses as a JSON
string array is replaced by the array, then loose decode plus the
default record list. -/
def normalizeDNS (jd : JsonDec) (ps : Params) : Except String DNSParams := do
  let ps1 :=
    match lookupP ps "records" with
    | some (.jstr s) =>
      match jd.strListOf s with
      | some arr => setP ps "records" (.jarr (arr.map JVal.jstr))
      | none => ps
    | _ => ps
  let records ← getStrList ps1 "records"
  let resolver ← getString ps1 "resolver"
  let records := if records.length = 0 then ["A"] else records
  return { records := records, resolver := resolver }

/-- A check as it arrives in the task JSON. -/
structure RawCheck where
  typ : String
  params : Params

/-- Shallow embedding of `normalizeCheckParams` (service.go lines 147-259):
dispatch on the lower-cased type; an unknown type is rejected with the
`unsupported check type` error (which aborts the whole `ParseTask` — the
identical synthetic-envelope branch in `runOne`, lines 418-419, is
unreachable because only normalized checks reach it). -/
def normalizeCheckParams (jd : JsonDec) (c : RawCheck) : Except String NCheck :=
  match strToLower c.typ with
  | "http" => NCheck.http <$> normalizeHTTP jd c.params
  | "ping" => NCheck.ping <$> normalizePing c.params
  | "tcp" => NCheck.tcp <$> normalizeTCP c.params
  | "traceroute" => NCheck.traceroute <$> normalizeTraceroute c.params
  | "dns" => NCheck.dns <$> normalizeDNS jd c.params
  | _ => .error ("unsupported check type \"" ++ c.typ ++ "\"")

/-- The task message as decoded from the bus (`model.TaskMessage`; the client
context is not used by the executor and is omitted). -/
structure RawTask where
  id : UUID
  target : String
  timeoutSeconds : Int
  checks : List RawCheck

/-- A parsed task: each check keeps its original type string (used for the
envelope `type` field) next to its normalized params. -/
structure NTask where
  id : UUID
  target : String
  timeoutSeconds : Int
  checks : List (String × NCheck)

/-- The check-normalization loop of `ParseTask` (service.go lines 139-143):
checks are normalized in order and the first failure aborts with the
`check <i> (<type>): <err>` wrapping. -/
def normalizeChecks (jd : JsonDec) : Nat → List RawCheck → Except String (List (String × NCheck))
  | _, [] => .ok []
  | i, c :: rest =>
    match normalizeCheckParams jd c with
    | .error e => .error ("check " ++ toString i ++ " (" ++ c.typ ++ "): " ++ e)
    | .ok nc =>
      match normalizeChecks jd (i + 1) rest with
      | .error e => .error e
      | .ok ncs => .ok ((c.typ, nc) :: ncs)

/-- Shallow embedding of `ParseTask` (service.go lines 134-145) after a
successful JSON decode of the task body. -/
def parseTask (jd : JsonDec) (t : RawTask) : Except String NTask :=
  match normalizeChecks jd 0 t.checks with
  | .error e => .error e
  | .ok ncs => .ok { id := t.id, target := t.target, timeoutSeconds := t.timeoutSeconds, checks := ncs }

/-- A result envelope (`model.CheckResult` on the agent side). The wall-clock
fields `startedAt` / `durationMs` are not modelled. `error = none` models the
omitted (`omitempty`) error field. -/
structure Envelope where
  taskId : UUID
  checkIndex : Nat
  typ : String
  target : String
  ok : Bool
  error : Option String
  payload : Option JVal

/-- Shallow embedding of `makeResTemplate` (service.go lines 423-444): lowers
the type, sets `error` exactly when a non-nil error was passed, and carries
the marshalled payload when one was passed. -/
def makeResTemplate (taskId : UUID) (idx : Nat) (typ target : String)
    (ok : Bool) (err : Option String) (payload : Option JVal) : Envelope :=
  { taskId := taskId, checkIndex := idx, typ := strToLower typ, target := target,
    ok := ok, error := err, payload := payload }

/-- The `makeRes` closure a runner receives. -/
abbrev MakeRes := Bool → Option String → Option JVal → Envelope

/-- Network outcome of the HTTP probe: request construction error, transport
error from `client.Do`, or a final response status (with the final URL). -/
inductive HTTPOutcome where
  | reqError (e : String)
  | doError (e : String)
  | resp (code : Int) (finalURL : String)

/-- Outcome of the TCP dial. -/
inductive TCPOutcome where
  | dialError (e : String)
  | connected (handshakeMs : Int)

/-- Outcome of an external command (`ping` / `traceroute`). -/
inductive CmdOutcome where
  | cmdError (e : String) (exit : Int) (output : String)
  | success (output : String)

/-- Model of `nonEmpty` (service.go lines 771-776). -/
def nonEmpty (s dflt : String) : String :=
  if strTrim s = "" then dflt else s

/-- Model of `tail` (service.go lines 855-860). -/
def tailStr (s : String) (max : Nat) : String :=
  if s.data.length ≤ max then s else ⟨s.data.drop (s.data.length - max)⟩

/-- Shallow embedding of `runHTTP` (service.go lines 446-489): build the URL
from scheme / target / path (with defaults), and on a received response set
`ok` exactly when the final status code lies inside the inclusive
`expectedStatusRange`; transport failures carry the error. The measured
`latencyMs` payload field is not modelled. -/
def runHTTP (target : String) (p : HTTPParams) (out : HTTPOutcome) (mk : MakeRes) : Envelope :=
  let url := nonEmpty p.scheme "https" ++ "://" ++ target ++ nonEmpty p.path "/"
  match out with
  | .reqError e => mk false (some e) none
  | .doError e => mk false (some e) (some (.jobj [("url", .jstr url)]))
  | .resp code finalURL =>
    let ok := decide (p.expectedStatusRange.1 ≤ code) && decide (code ≤ p.expectedStatusRange.2)
    mk ok none (some (.jobj
      [("url", .jstr url), ("status", .jnum code), ("finalURL", .jstr finalURL),
       ("limitBytes", .jnum p.maxBodyBytes)]))

/-- Shallow embedding of `runTCP` (service.go lines 491-507). The
`net.JoinHostPort` bracketing of IPv6 hosts is simplified to
`target:port`. -/
def runTCP (target : String) (p : TCPParams) (out : TCPOutcome) (mk : MakeRes) : Envelope :=
  let addr := target ++ ":" ++ toString p.port
  match out with
  | .dialError e => mk false (some e) (some (.jobj [("addr", .jstr addr)]))
  | .connected ms => mk true none (some (.jobj [("addr", .jstr addr), ("handshake", .jnum ms)]))

/-- Dotted-quad test modelling `net.ParseIP(ip) != nil && parsed.To4() != nil`
for the strings a resolver returns. -/
def looksIPv4 (s : String) : Bool :=
  let ps := splitChar '.' s.data
  ps.length = 4 && ps.all (fun q =>
    !q.isEmpty && q.length ≤ 3 && q.all Char.isDigit && ((natOfDigits q).getD 256) ≤ 255)

/-- Shallow embedding of `runDNS` (service.go lines 509-569): walk the
requested records; lookups that fail add a `<REC>_error` entry and mark the
run failed; unsupported record types likewise; `ok = (no per-record error)`
and the error field of the envelope is never set. The results map is
modelled as an ordered list of entries. -/
def runDNS (target : String) (p : DNSParams)
    (host : String → Except String (List String))
    (mxq : Except String (List (String × Nat))) (mk : MakeRes) : Envelope :=
  let _ := target
  let step := fun (acc : List (String × JVal) × Bool) (rr : String) =>
    let (results, haveError) := acc
    match strToUpper rr with
    | "A" =>
      match host "A" with
      | .error e => (results ++ [("A_error", .jstr e)], true)
      | .ok ips => (results ++ [("A", .jarr ((ips.filter looksIPv4).map JVal.jstr))], haveError)
    | "AAAA" =>
      match host "AAAA" with
      | .error e => (results ++ [("AAAA_error", .jstr e)], true)
      | .ok ips =>
        (results ++ [("AAAA", .jarr ((ips.filter (fun ip => !looksIPv4 ip)).map JVal.jstr))], haveError)
    | "MX" =>
      match mxq with
      | .error e => (results ++ [("MX_error", .jstr e)], true)
      | .ok mx =>
        (results ++ [("MX", .jarr (mx.map (fun m =>
          .jobj [("host", .jstr m.1), ("pref", .jnum (Int.ofNat m.2))])))], haveError)
    | _ => (results ++ [(strToUpper rr ++ "_error", .jstr "unsupported record type")], true)
  let fin := p.records.foldl step ([], false)
  mk (!fin.2) none (some (.jobj fin.1))

/-- Render of the interval flag value `%.3f` of `intervalMs/1000` seconds. -/
def fmtIntervalSec (n : Int) : String :=
  let t := n.toNat
  let r := t % 1000
  toString (t / 1000) ++ "." ++
    (if r < 10 then "00" else if r < 100 then "0" else "") ++ toString r

/-- The Unix `ping` command line the agent builds (service.go lines 588-596;
the Windows branch is not modelled). -/
def pingCommand (target : String) (p : PingParams) : String :=
  "ping -c " ++ toString p.count ++ " -i " ++ fmtIntervalSec p.intervalMs ++ " " ++ target

/-- Shallow embedding of `runPing` (service.go lines 585-612): success is
exit code 0; a command failure carries the error and the exit code. -/
def runPing (target : String) (p : PingParams) (out : CmdOutcome) (mk : MakeRes) : Envelope :=
  match out with
  | .cmdError e exit outp =>
    mk false (some e) (some (.jobj
      [("command", .jstr (pingCommand target p)), ("output", .jstr (tailStr outp 4096)),
       ("exitCode", .jnum exit)]))
  | .success outp =>
    mk true none (some (.jobj
      [("command", .jstr (pingCommand target p)), ("output", .jstr (tailStr outp 4096)),
       ("exitCode", .jnum 0)]))

/-- A traceroute hop with optional geo coordinates (coordinates as integer
micro-degrees; the float representation is immaterial here). -/
structure Hop where
  ip : String
  lat : Option Int
  lon : Option Int

/-- The Unix `traceroute` command line (service.go `buildTracerouteArgs`,
lines 748-769; Windows branch not modelled). -/
def tracerouteCommand (target : String) (p : TracerouteParams) : String :=
  let mh := if p.maxHops ≤ 0 then 30 else p.maxHops
  let modal :=
    match strToLower p.mode with
    | "tcp" => " -T" ++ (if p.port > 0 then " -p " ++ toString p.port else "")
    | "icmp" => " -I"
    | _ => ""
  "traceroute -n -m " ++ toString mh ++ modal ++ " " ++ target

/-- Shallow embedding of `runTraceroute` (service.go lines 704-746):
`ok = (command error == nil)` and the error field carries the command error;
the hop extraction (regex over the output) and the geo-cache resolution are
summarized by the `hops` argument. -/
def runTraceroute (target : String) (p : TracerouteParams) (out : CmdOutcome)
    (hops : List Hop) (mk : MakeRes) : Envelope :=
  let hopsJ : JVal := .jarr (hops.map (fun h =>
    .jobj ([("ip", .jstr h.ip)] ++
      (match h.lat, h.lon with
       | some la, some lo => [("lat", .jnum la), ("lon", .jnum lo)]
       | _, _ => []))))
  match out with
  | .cmdError e exit outp =>
    mk false (some e) (some (.jobj
      [("command", .jstr (tracerouteCommand target p)),
       ("output", .jstr (tailStr outp 8192)), ("exitCode", .jnum exit), ("hops", hopsJ)]))
  | .success outp =>
    mk true none (some (.jobj
      [("command", .jstr (tracerouteCommand target p)),
       ("output", .jstr (tailStr outp 8192)), ("exitCode", .jnum 0), ("hops", hopsJ)]))

/-- Per-check network outcomes for one task run, indexed by check index
(the external world the probes hit). -/
structure ProbeOracle where
  http : Nat → HTTPOutcome
  tcp : Nat → TCPOutcome
  ping : Nat → CmdOutcome
  trace : Nat → CmdOutcome
  traceHops : Nat → List Hop
  dnsHost : Nat → String → Except String (List String)
  dnsMX : Nat → Except String (List (String × Nat))

/-- Shallow embedding of `runOne` (service.go lines 390-421) on a normalized
check. The Go `default` branch (synthetic `unsupported check type` envelope)
is unreachable here because `ParseTask` already rejected unknown kinds. -/
def runOne (t : NTask) (i : Nat) (chk : String × NCheck) (orc : ProbeOracle) : Envelope :=
  let mk : MakeRes := makeResTemplate t.id i chk.1 t.target
  match chk.2 with
  | .http p => runHTTP t.target p (orc.http i) mk
  | .ping p => runPing t.target p (orc.ping i) mk
  | .tcp p => runTCP t.target p (orc.tcp i) mk
  | .traceroute p => runTraceroute t.target p (orc.trace i) (orc.traceHops i) mk
  | .dns p => runDNS t.target p (orc.dnsHost i) (orc.dnsMX i) mk

/-- The effective overall deadline seconds (`RunCheck` lines 310-313). -/
def effTimeoutSeconds (t : NTask) : Int :=
  if t.timeoutSeconds ≤ 0 then 20 else t.timeoutSeconds

/-- Shallow embedding of the fan-out of `RunCheck` (service.go lines
309-348): one worker per check; a worker whose overall deadline already
fired publishes the synthetic `context deadline exceeded` failure envelope,
every other worker publishes the probe result — exactly one envelope per
check either way. `deadlineHit i` tells whether the overall context was done
before worker `i` started. -/
def runCheckEnvelopes (t : NTask) (orc : ProbeOracle) (deadlineHit : Nat → Bool) :
    List Envelope :=
  t.checks.enum.map (fun ic =>
    if deadlineHit ic.1 then
      makeResTemplate t.id ic.1 ic.2.1 t.target false (some "context deadline exceeded") none
    else runOne t ic.1 ic.2 orc)

/-- A consumed task end to end (`Service.process`, lines 124-132): parse,
then run; a parse failure returns the error without publishing any
envelope. -/
def agentHandle (jd : JsonDec) (raw : RawTask) (orc : ProbeOracle)
    (deadlineHit : Nat → Bool) : List Envelope :=
  match parseTask jd raw with
  | .error _ => []
  | .ok t => runCheckEnvelopes t orc deadlineHit

/-- The check kinds `normalizeCheckParams` accepts. -/
def knownKinds : List String := ["http", "ping", "tcp", "traceroute", "dns"]

/-- The effective expected-status range after normalization: an all-zero
range (the `[2]int` zero value) is replaced by the 200..299 default. -/
def effRange (a b : Int) : Int × Int :=
  if (a, b) = ((0 : Int), (0 : Int)) then (200, 299) else (a, b)

/- ## Concrete fixtures used by witnesses and counterexamples -/

/-- A JSON decoder oracle whose embedded-string decodes all fail (fine for
inputs that never exercise them). -/
def jd0 : JsonDec := ⟨fun _ => none, fun _ => none⟩

/-- A probe oracle where every network interaction fails. -/
def orc0 : ProbeOracle :=
  { http := fun _ => .reqError "dial failed",
    tcp := fun _ => .dialError "dial failed",
    ping := fun _ => .cmdError "exit status 1" 1 "",
    trace := fun _ => .cmdError "exit status 1" 1 "",
    traceHops := fun _ => [],
    dnsHost := fun _ _ => .error "lookup failed",
    dnsMX := fun _ => .error "lookup failed" }

/-- A run in which no overall deadline fires. -/
def dl0 : Nat → Bool := fun _ => false

/-- A result row with the status the ingest writes for a successful check. -/
def doneRow : CheckResultResponse :=
  { requestId := 1, agentId := 2, agentRegion := "EU", typ := "http",
    status := "DONE", payload := [] }

/-- A result row with the status the ingest writes for a failed check. -/
def failedRow : CheckResultResponse :=
  { requestId := 1, agentId := 2, agentRegion := "EU", typ := "http",
    status := "FAILED", payload := [] }

/-- An empty ingest database. -/
def emptyIngestDB : IngestDB := ⟨[], []⟩

/-- A decoded agent result used in the ingest fixtures. -/
def resW : AgentResultMsg := { taskId := 7, typ := "http", ok := true, startedAt := 5 }

/-- An inbox message with a well-formed 16-byte key whose ingest transaction
fails at the inbox-row insert. -/
def envInsertFail : InboxEnv :=
  { key := List.replicate 16 0, value := [123], decoded := some resW,
    topic := "results", beginOk := true, insertMsgOk := false,
    insertResOk := true, commitOk := true, freshId := 9, now := 11 }

/-- An inbox message whose key is a single byte and cannot parse as a UUID. -/
def envBadKey : InboxEnv :=
  { key := [0], value := [], decoded := none, topic := "results",
    beginOk := true, insertMsgOk := true, insertResOk := true,
    commitOk := true, freshId := 0, now := 0 }

/-- An inbox message whose key is empty (also unparsable). -/
def envEmptyKey : InboxEnv :=
  { key := [], value := [], decoded := some resW, topic := "results",
    beginOk := true, insertMsgOk := true, insertResOk := true,
    commitOk := true, freshId := 0, now := 0 }

/-- An empty dispatch database. -/
def emptyDispatchDB : DispatchDB := ⟨[], [], []⟩

/-- Two agents in distinct regions. -/
def agentsW : List Agent := [⟨100, "EU", 1, true⟩, ⟨101, "US", 2, true⟩]

/-- A broadcast request body with a single http check. -/
def reqBroadcast : TaskMessageRequest :=
  { target := "example.com", timeoutSeconds := 20, broadcast := true,
    checks := [⟨"http", []⟩] }

/-- The same request body with broadcast off. -/
def reqSingle : TaskMessageRequest :=
  { target := "example.com", timeoutSeconds := 20, broadcast := false,
    checks := [⟨"http", []⟩] }

/-- A broadcast dispatch environment with no injected failure and a nil
client IP. -/
def envBroadcast : DispatchEnv :=
  { req := reqBroadcast, ip := none, ua := "UA", agents := agentsW,
    requestId := 1, idSeed := 10, dbFail := none, now := 0 }

/-- The non-broadcast variant of the same environment. -/
def envSingle : DispatchEnv :=
  { envBroadcast with req := reqSingle }

/-- A dispatch environment whose commit step fails. -/
def envCommitFail : DispatchEnv :=
  { envBroadcast with dbFail := some .commitTx }

/-- A task containing one check of an unknown kind. -/
def rawBad : RawTask :=
  { id := 1, target := "example.com", timeoutSeconds := 20,
    checks := [⟨"foo", []⟩] }

/-- A well-formed task with a tcp and a dns check. -/
def rawGood : RawTask :=
  { id := 2, target := "example.com", timeoutSeconds := 20,
    checks := [⟨"tcp", [("port", .jnum 443)]⟩, ⟨"dns", []⟩] }

/-- The parse of `rawGood` (checked definitionally in the C3 witness). -/
def ntGood : NTask :=
  { id := 2, target := "example.com", timeoutSeconds := 20,
    checks := [("tcp", .tcp ⟨443, 3000⟩), ("dns", .dns ⟨["A"], ""⟩)] }

/-- HTTP params with the default status range (used in the C8 witness). -/
def hpDefault : HTTPParams :=
  { scheme := "https", path := "/", headers := none,
    expectedStatusRange := (200, 299), followRedirects := false,
    maxBodyBytes := 0 }

/- ## Helper lemmas -/

theorem geoLookup_region_eq (ip : Option IPGeoData) :
    (geoLookup ip).region =
      (if upperContinent ip = "US" then "US"
       else if upperContinent ip = "AS" then "APAC"
       else if upperContinent ip = "OC" then "APAC"
       else "EU") := by
  obtain _ | ⟨ipS, asnR, cr⟩ := ip
  · rfl
  · rcases cr with _ | ⟨c, k⟩ <;> rfl

theorem regionClaim_eq (ip : Option IPGeoData) :
    regionClaim ip =
      (if upperContinent ip = "AS" ∨ upperContinent ip = "OC" then "APAC"
       else if upperContinent ip = "US" then "US"
       else "EU") := by
  obtain _ | ⟨ipS, asnR, cr⟩ := ip
  · rfl
  · rcases cr with _ | ⟨c, k⟩ <;> rfl

/- ## Claim theorems -/

/-- C10: `Geo.Lookup` returns APAC exactly when the upper-cased continent
code is AS or OC, returns US exactly when that code is the literal string
US (which the offline databases never emit for North America — they emit
NA, which falls to the default), returns EU in every other case, and for a
nil IP returns EU with ASN 0 and an empty country code. -/
theorem c10_geo_lookup_region :
    (∀ ip : Option IPGeoData, (geoLookup ip).region = regionClaim ip) ∧
    (∀ ip : Option IPGeoData,
      ((geoLookup ip).region = "APAC" ↔
        (upperContinent ip = "AS" ∨ upperContinent ip = "OC"))) ∧
    (∀ ip : Option IPGeoData,
      ((geoLookup ip).region = "US" ↔ upperContinent ip = "US")) ∧
    geoLookup (some ⟨"99.99.99.99", some 5, some ("US", "NA")⟩) =
      { asn := 5, cc := "US", continent := "NA", region := "EU" } ∧
    geoLookup none = { asn := 0, cc := "", continent := "", region := "EU" } := by
  refine ⟨?_, ?_, ?_, rfl, rfl⟩
  · intro ip
    rw [geoLookup_region_eq, regionClaim_eq]
    split_ifs <;> simp_all
  · intro ip
    rw [geoLookup_region_eq]
    split_ifs <;> simp_all
  · intro ip
    rw [geoLookup_region_eq]
    split_ifs <;> simp_all

/-- C2: the result stream's termination check. The ingest pipeline persists
successful checks with status DONE, but `allTerminal` recognizes the
literal SUCCESS and not DONE, so a non-empty all-DONE list does NOT
trigger the done frame (the socket stays open), while a FAILED list does;
the loop closes exactly when `allTerminal` holds of the queried list. -/
theorem c2_done_frame_status :
    ingestStatus true = "DONE" ∧
    doneRow.status = ingestStatus true ∧
    allTerminal [doneRow] = false ∧
    streamTick none (Except.ok [doneRow]) =
      ([.snapshot [doneRow]], some [doneRow], false) ∧
    allTerminal [failedRow] = true ∧
    streamTick (some [doneRow]) (Except.ok [failedRow]) =
      ([.update [failedRow], .done (some [failedRow])], some [failedRow], true) ∧
    (∀ (lastHash : Option (List CheckResultResponse)) (l : List CheckResultResponse),
      (streamTick lastHash (Except.ok l)).2.2 = allTerminal l) := by
  refine ⟨rfl, rfl, rfl, rfl, rfl, rfl, ?_⟩
  intro lastHash l
  cases lastHash <;> simp only [streamTick] <;> split_ifs <;> simp_all

/-- C7 counterexample: a bus message whose key is a single byte (not a
16-byte UUID). The worker skips it without any database change, but it
does NOT acknowledge the offset (`msg.Mark()` is skipped by the
`continue`), contradicting the claim that the message is acknowledged. -/
theorem c7_badkey_counterexample :
    uuidFromBytes envBadKey.key = none ∧
    inboxWorkerStep emptyIngestDB envBadKey = (emptyIngestDB, false) :=
  ⟨rfl, rfl⟩

/-- C7 amended: when the key does not parse as a 16-byte UUID, the worker
logs, skips the message without any state change, and does NOT acknowledge
the offset. -/
theorem c7_badkey_amended (db : IngestDB) (env : InboxEnv)
    (h : uuidFromBytes env.key = none) :
    inboxWorkerStep db env = (db, false) := by
  unfold inboxWorkerStep
  rw [h]

/-- Witness for the C7 amended theorem at the empty-key message. -/
theorem c7_badkey_witness :
    uuidFromBytes envEmptyKey.key = none ∧
    inboxWorkerStep emptyIngestDB envEmptyKey = (emptyIngestDB, false) :=
  ⟨rfl, c7_badkey_amended emptyIngestDB envEmptyKey rfl⟩

/-- C1 counterexample: a result message with a valid key whose ingest
transaction fails at the inbox-row insert. The transaction rolls back
(no row is persisted) yet the worker still acknowledges the offset
(`msg.Mark()` runs after the error is merely logged), so the message is
NOT redelivered — contradicting both disjuncts of the claim. -/
theorem c1_ack_counterexample :
    uuidFromBytes envInsertFail.key = some 0 ∧
    (ingestProcess emptyIngestDB envInsertFail 0).2 =
      Except.error "failed to insert message" ∧
    inboxWorkerStep emptyIngestDB envInsertFail = (emptyIngestDB, true) :=
  ⟨rfl, rfl, rfl⟩

/-- C1 amended: the two rows are still written atomically — the database
either is unchanged or receives the inbox row and the check-result row in
one committed transaction — but the offset is acknowledged exactly when
the key parses as a UUID, regardless of whether the transaction
succeeded; a failed ingest transaction is therefore acknowledged and the
message is not redelivered. -/
theorem c1_ingest_amended (db : IngestDB) (env : InboxEnv) :
    (inboxWorkerStep db env).2 = (uuidFromBytes env.key).isSome ∧
    ((inboxWorkerStep db env).1 = db ∨
      ∃ mid r, uuidFromBytes env.key = some mid ∧ env.decoded = some r ∧
        env.beginOk = true ∧ env.insertMsgOk = true ∧ env.insertResOk = true ∧
        env.commitOk = true ∧
        (inboxWorkerStep db env).1 = commitIngest db env mid r) := by
  cases hk : uuidFromBytes env.key with
  | none =>
    exact ⟨by simp [inboxWorkerStep, hk], Or.inl (by simp [inboxWorkerStep, hk])⟩
  | some mid =>
    refine ⟨by simp [inboxWorkerStep, hk], ?_⟩
    have hstep : (inboxWorkerStep db env).1 = (ingestProcess db env mid).1 := by
      simp [inboxWorkerStep, hk]
    cases hd : env.decoded with
    | none => exact Or.inl (by simp [hstep, ingestProcess, hd])
    | some r =>
      cases hb : env.beginOk with
      | false => exact Or.inl (by simp [hstep, ingestProcess, hd, hb])
      | true =>
        cases him : env.insertMsgOk with
        | false => exact Or.inl (by simp [hstep, ingestProcess, hd, hb, him])
        | true =>
          cases hir : env.insertResOk with
          | false => exact Or.inl (by simp [hstep, ingestProcess, hd, hb, him, hir])
          | true =>
            cases hcm : env.commitOk with
            | false => exact Or.inl (by simp [hstep, ingestProcess, hd, hb, him, hir, hcm])
            | true =>
              exact Or.inr ⟨mid, r, rfl, rfl, rfl, rfl, rfl, rfl,
                by simp [hstep, ingestProcess, hd, hb, him, hir, hcm]⟩

/-- Witness for the C1 amended theorem at a fully successful ingest (the
committed state holds both rows) and visibility of the acknowledge-iff-
parses part at the failing fixture. -/
theorem c1_ingest_amended_witness :
    (inboxWorkerStep emptyIngestDB envInsertFail).2 = true ∧
    (inboxWorkerStep emptyIngestDB envInsertFail).1 = emptyIngestDB := by
  have h := c1_ingest_amended emptyIngestDB envInsertFail
  refine ⟨by rw [h.1]; rfl, ?_⟩
  rcases h.2 with h2 | ⟨mid, r, _, _, _, him, _, _, _⟩
  · exact h2
  · exact absurd him (by decide)

theorem mem_insertByCreatedAt {r x : OutboxRow} {l : List OutboxRow} :
    x ∈ insertByCreatedAt r l ↔ x = r ∨ x ∈ l := by
  induction l with
  | nil => simp [insertByCreatedAt]
  | cons a l ih =>
    unfold insertByCreatedAt
    split_ifs with h
    · simp
    · simp only [List.mem_cons, ih]
      tauto

theorem mem_sortByCreatedAt {x : OutboxRow} {l : List OutboxRow} :
    x ∈ sortByCreatedAt l ↔ x ∈ l := by
  induction l with
  | nil => simp [sortByCreatedAt]
  | cons a l ih =>
    show x ∈ insertByCreatedAt a (sortByCreatedAt l) ↔ _
    rw [mem_insertByCreatedAt]
    simp [ih]

theorem selectUnsentBatch_all_unsent (rows : List OutboxRow) (n : Nat) :
    (selectUnsentBatch rows n).all (fun r => !r.sent) = true := by
  rw [List.all_eq_true]
  intro r hr
  have h1 : r ∈ sortByCreatedAt (rows.filter (fun r => !r.sent)) :=
    List.take_subset _ _ hr
  have h2 : r ∈ rows.filter (fun r => !r.sent) := mem_sortByCreatedAt.mp h1
  exact (List.mem_filter.mp h2).2

theorem pubLoop_published_mem (pubOk updOk : Nat → Bool) (now : Nat) :
    ∀ (batch : List OutboxRow) (i : Nat) (st : List OutboxRow) (x : OutboxRow),
      x ∈ (pubLoop pubOk updOk now batch i st).2 → x ∈ batch := by
  intro batch
  induction batch with
  | nil => intro i st x h; simp [pubLoop] at h
  | cons msg rest ih =>
    intro i st x h
    unfold pubLoop at h
    simp only [List.mem_append] at h
    rcases h with h | h
    · split_ifs at h <;> simp_all
    · exact List.mem_cons_of_mem _ (ih (i + 1) _ x h)

/-- C6: the outbox publisher marks a row sent only after the bus publish for
it succeeded (a publish failure leaves the rows untouched, an update
failure likewise), the mark sets `sent = true` and `sentAt` in one update,
`SelectUnsentBatch` never returns a row with `sent = true`, and every row a
poll tick publishes was unsent when the batch was selected. -/
theorem c6_outbox_mark_after_publish :
    (∀ (rows : List OutboxRow) (msg : OutboxRow) (updOk : Bool) (now : Nat),
      sendAndMark rows msg false updOk now = (rows, Except.error "failed to push message")) ∧
    (∀ (rows : List OutboxRow) (msg : OutboxRow) (now : Nat),
      sendAndMark rows msg true false now = (rows, Except.error "failed to update as sent")) ∧
    (∀ (rows : List OutboxRow) (msg : OutboxRow) (now : Nat),
      sendAndMark rows msg true true now = (updateAsSent rows msg.id now, Except.ok ())) ∧
    (∀ (rows : List OutboxRow) (mid : UUID) (now : Nat),
      (updateAsSent rows mid now).all
        (fun r => (!(r.id == mid)) || (r.sent && r.sentAt == some now)) = true) ∧
    (∀ (rows : List OutboxRow) (n : Nat),
      (selectUnsentBatch rows n).all (fun r => !r.sent) = true) ∧
    (∀ (rows : List OutboxRow) (n : Nat) (pubOk updOk : Nat → Bool) (now : Nat),
      (publisherTick rows n pubOk updOk now).2.all (fun r => !r.sent) = true) := by
  refine ⟨?_, ?_, ?_, ?_, selectUnsentBatch_all_unsent, ?_⟩
  · intro rows msg updOk now; simp [sendAndMark]
  · intro rows msg now; simp [sendAndMark]
  · intro rows msg now; simp [sendAndMark]
  · intro rows mid now
    rw [List.all_eq_true]
    intro r hr
    rw [updateAsSent, List.mem_map] at hr
    obtain ⟨x, _, hx⟩ := hr
    by_cases h : x.id = mid <;> simp [h] at hx <;> subst hx <;> simp [h]
  · intro rows n pubOk updOk now
    rw [List.all_eq_true]
    intro r hr
    have hb : r ∈ selectUnsentBatch rows n :=
      pubLoop_published_mem pubOk updOk now _ 0 rows r hr
    exact List.all_eq_true.mp (selectUnsentBatch_all_unsent rows n) r hb

/-- C9 counterexample: a DNS check asking for a TXT record (unsupported by
`runDNS`) produces an envelope with `ok = false` and the `error` field
omitted — the failure detail lives only in the payload map — refuting the
claim that every `ok = false` envelope carries a non-empty error. -/
theorem c9_error_field_counterexample :
    (runDNS "example.com" ⟨["TXT"], ""⟩ (fun _ => Except.error "boom")
        (Except.error "boom") (makeResTemplate 1 0 "dns" "example.com")).ok = false ∧
    (runDNS "example.com" ⟨["TXT"], ""⟩ (fun _ => Except.error "boom")
        (Except.error "boom") (makeResTemplate 1 0 "dns" "example.com")).error = none :=
  ⟨rfl, rfl⟩

/-- C9 amended: the error field is omitted on every `ok = true` envelope,
and transport- or command-level failures do carry the error message with
`ok = false`; but the two in-band failure modes — an HTTP response outside
the expected status range and a DNS per-record failure — set `ok = false`
with the error field omitted (details only in the payload). -/
theorem c9_error_field_amended :
    (∀ (tid : UUID) (i : Nat) (ty tgt : String) (ok : Bool) (err : Option String)
        (pl : Option JVal), (makeResTemplate tid i ty tgt ok err pl).error = err) ∧
    (∀ (tgt : String) (p : HTTPParams) (out : HTTPOutcome) (tid : UUID) (i : Nat) (ty : String),
      ((runHTTP tgt p out (makeResTemplate tid i ty tgt)).ok &&
        ((runHTTP tgt p out (makeResTemplate tid i ty tgt)).error).isSome) = false) ∧
    (∀ (tgt : String) (p : TCPParams) (out : TCPOutcome) (tid : UUID) (i : Nat) (ty : String),
      ((runTCP tgt p out (makeResTemplate tid i ty tgt)).ok &&
        ((runTCP tgt p out (makeResTemplate tid i ty tgt)).error).isSome) = false) ∧
    (∀ (tgt : String) (p : PingParams) (out : CmdOutcome) (tid : UUID) (i : Nat) (ty : String),
      ((runPing tgt p out (makeResTemplate tid i ty tgt)).ok &&
        ((runPing tgt p out (makeResTemplate tid i ty tgt)).error).isSome) = false) ∧
    (∀ (tgt : String) (p : TracerouteParams) (out : CmdOutcome) (hops : List Hop)
        (tid : UUID) (i : Nat) (ty : String),
      ((runTraceroute tgt p out hops (makeResTemplate tid i ty tgt)).ok &&
        ((runTraceroute tgt p out hops (makeResTemplate tid i ty tgt)).error).isSome) = false) ∧
    (∀ (tgt : String) (p : DNSParams) (host : String → Except String (List String))
        (mxq : Except String (List (String × Nat))) (tid : UUID) (i : Nat) (ty : String),
      ((runDNS tgt p host mxq (makeResTemplate tid i ty tgt)).ok &&
        ((runDNS tgt p host mxq (makeResTemplate tid i ty tgt)).error).isSome) = false) ∧
    (∀ (tgt : String) (p : HTTPParams) (e : String) (tid : UUID) (i : Nat) (ty : String),
      (runHTTP tgt p (.doError e) (makeResTemplate tid i ty tgt)).error = some e ∧
      (runHTTP tgt p (.doError e) (makeResTemplate tid i ty tgt)).ok = false) ∧
    (∀ (tgt : String) (p : TCPParams) (e : String) (tid : UUID) (i : Nat) (ty : String),
      (runTCP tgt p (.dialError e) (makeResTemplate tid i ty tgt)).error = some e ∧
      (runTCP tgt p (.dialError e) (makeResTemplate tid i ty tgt)).ok = false) ∧
    (∀ (tgt : String) (p : PingParams) (e : String) (ex : Int) (o : String)
        (tid : UUID) (i : Nat) (ty : String),
      (runPing tgt p (.cmdError e ex o) (makeResTemplate tid i ty tgt)).error = some e ∧
      (runPing tgt p (.cmdError e ex o) (makeResTemplate tid i ty tgt)).ok = false) ∧
    (∀ (tgt : String) (p : TracerouteParams) (e : String) (ex : Int) (o : String)
        (hops : List Hop) (tid : UUID) (i : Nat) (ty : String),
      (runTraceroute tgt p (.cmdError e ex o) hops (makeResTemplate tid i ty tgt)).error = some e ∧
      (runTraceroute tgt p (.cmdError e ex o) hops (makeResTemplate tid i ty tgt)).ok = false) ∧
    (∀ (tgt : String) (p : HTTPParams) (code : Int) (u : String)
        (tid : UUID) (i : Nat) (ty : String),
      (runHTTP tgt p (.resp code u) (makeResTemplate tid i ty tgt)).error = none) ∧
    (∀ (tgt : String) (p : DNSParams) (host : String → Except String (List String))
        (mxq : Except String (List (String × Nat))) (tid : UUID) (i : Nat) (ty : String),
      (runDNS tgt p host mxq (makeResTemplate tid i ty tgt)).error = none) ∧
    (∀ (tid : UUID) (i : Nat) (ty tgt : String),
      (makeResTemplate tid i ty tgt false (some "context deadline exceeded") none).ok = false ∧
      (makeResTemplate tid i ty tgt false (some "context deadline exceeded") none).error =
        some "context deadline exceeded") := by
  refine ⟨fun _ _ _ _ _ _ _ => rfl, ?_, ?_, ?_, ?_, ?_, ?_, ?_, ?_, ?_, ?_, ?_, ?_⟩
  · intro tgt p out tid i ty; cases out <;> simp [runHTTP, makeResTemplate]
  · intro tgt p out tid i ty; cases out <;> simp [runTCP, makeResTemplate]
  · intro tgt p out tid i ty; cases out <;> simp [runPing, makeResTemplate]
  · intro tgt p out hops tid i ty; cases out <;> simp [runTraceroute, makeResTemplate]
  · intro tgt p host mxq tid i ty; simp [runDNS, makeResTemplate]
  · intro tgt p e tid i ty; exact ⟨rfl, rfl⟩
  · intro tgt p e tid i ty; exact ⟨rfl, rfl⟩
  · intro tgt p e ex o tid i ty; exact ⟨rfl, rfl⟩
  · intro tgt p e ex o hops tid i ty; exact ⟨rfl, rfl⟩
  · intro tgt p code u tid i ty; rfl
  · intro tgt p host mxq tid i ty; rfl
  · intro tid i ty tgt; exact ⟨rfl, rfl⟩

theorem normalizeCheckParams_known {jd : JsonDec} {c : RawCheck} {nc : NCheck}
    (h : normalizeCheckParams jd c = .ok nc) :
    knownKinds.contains (strToLower c.typ) = true := by
  unfold normalizeCheckParams at h
  split at h <;> simp_all [knownKinds]

theorem normalizeChecks_ok {jd : JsonDec} :
    ∀ {cs : List RawCheck} {i : Nat} {ncs : List (String × NCheck)},
      normalizeChecks jd i cs = .ok ncs →
      ncs.length = cs.length ∧
      cs.all (fun c => knownKinds.contains (strToLower c.typ)) = true := by
  intro cs
  induction cs with
  | nil =>
    intro i ncs h
    unfold normalizeChecks at h
    cases h
    simp
  | cons c rest ih =>
    intro i ncs h
    unfold normalizeChecks at h
    cases hn : normalizeCheckParams jd c with
    | error e => rw [hn] at h; cases h
    | ok nc =>
      rw [hn] at h
      cases hr : normalizeChecks jd (i + 1) rest with
      | error e => rw [hr] at h; cases h
      | ok ncs2 =>
        rw [hr] at h
        cases h
        have hrest := ih hr
        refine ⟨by simp [hrest.1], ?_⟩
        rw [List.all_cons, normalizeCheckParams_known hn, hrest.2]
        rfl

theorem runOne_checkIndex (t : NTask) (i : Nat) (chk : String × NCheck)
    (orc : ProbeOracle) : (runOne t i chk orc).checkIndex = i := by
  obtain ⟨ty, nc⟩ := chk
  cases nc with
  | http p => cases horc : orc.http i <;> simp [runOne, runHTTP, makeResTemplate, horc]
  | ping p => cases horc : orc.ping i <;> simp [runOne, runPing, makeResTemplate, horc]
  | tcp p => cases horc : orc.tcp i <;> simp [runOne, runTCP, makeResTemplate, horc]
  | traceroute p =>
    cases horc : orc.trace i <;> simp [runOne, runTraceroute, makeResTemplate, horc]
  | dns p => simp [runOne, runDNS, makeResTemplate]

/-- C3 counterexample: a consumed task with one check of the unknown kind
`foo`. `ParseTask` rejects the whole task (`normalizeCheckParams` returns
the `unsupported check type` error), so the agent emits ZERO envelopes
instead of the one synthetic `ok=false` envelope the claim requires: the
results for the task are suppressed. -/
theorem c3_unknown_kind_counterexample :
    rawBad.checks.length = 1 ∧
    parseTask jd0 rawBad =
      Except.error "check 0 (foo): unsupported check type \"foo\"" ∧
    agentHandle jd0 rawBad orc0 dl0 = [] :=
  ⟨rfl, rfl, rfl⟩

/-- C3 amended: for every consumed task that parses — in particular all of
whose checks have known kinds — the agent emits exactly N envelopes, one
per check index; but a task containing a check of an unknown kind fails
parsing as a whole and yields zero envelopes (the synthetic-envelope
branch of `runOne` is unreachable). -/
theorem c3_per_task_completeness (jd : JsonDec) (raw : RawTask) (t : NTask)
    (orc : ProbeOracle) (dl : Nat → Bool) (h : parseTask jd raw = .ok t) :
    agentHandle jd raw orc dl = runCheckEnvelopes t orc dl ∧
    (runCheckEnvelopes t orc dl).length = raw.checks.length ∧
    (runCheckEnvelopes t orc dl).map (fun e => e.checkIndex) =
      List.range raw.checks.length ∧
    raw.checks.all (fun c => knownKinds.contains (strToLower c.typ)) = true := by
  have hchecks : t.checks.length = raw.checks.length ∧
      raw.checks.all (fun c => knownKinds.contains (strToLower c.typ)) = true := by
    unfold parseTask at h
    cases hn : normalizeChecks jd 0 raw.checks with
    | error e => rw [hn] at h; cases h
    | ok ncs =>
      rw [hn] at h
      cases h
      exact normalizeChecks_ok hn
  refine ⟨by simp [agentHandle, h], ?_, ?_, hchecks.2⟩
  · simp [runCheckEnvelopes, List.enum_length, hchecks.1]
  · rw [runCheckEnvelopes, List.map_map, ← hchecks.1, ← List.enum_map_fst t.checks]
    apply List.map_congr_left
    intro ic _
    by_cases hdl : dl ic.1 <;> simp [hdl, Function.comp, makeResTemplate, runOne_checkIndex]

/-- Witness for the C3 amended theorem: the two-check task `rawGood` parses
to `ntGood` and produces exactly two envelopes with check indices 0, 1. -/
theorem c3_per_task_completeness_witness :
    agentHandle jd0 rawGood orc0 dl0 = runCheckEnvelopes ntGood orc0 dl0 ∧
    (runCheckEnvelopes ntGood orc0 dl0).length = 2 ∧
    (runCheckEnvelopes ntGood orc0 dl0).map (fun e => e.checkIndex) = [0, 1] ∧
    rawGood.checks.all (fun c => knownKinds.contains (strToLower c.typ)) = true := by
  have h := c3_per_task_completeness jd0 rawGood ntGood orc0 dl0 (by rfl)
  refine ⟨h.1, ?_, ?_, h.2.2.2⟩
  · rw [h.2.1]; rfl
  · rw [h.2.2.1]; rfl

theorem fanout_ok {msg : TaskMessage} {reqId : UUID} {seed : Nat}
    {fail : Option FailPoint} {now : Nat} :
    ∀ {agents : List Agent} {i : Nat} {obs : List DispatchOutboxRow}
      {asgs : List AssignmentRow},
      fanout msg reqId seed fail now agents i = .ok (obs, asgs) →
      obs.length = agents.length ∧ asgs.length = agents.length ∧
      List.Forall₂ (fun (m : DispatchOutboxRow) (a : Agent) =>
        m.topic = "hosts-check-" ++ a.region ∧ m.payload = msg) obs agents ∧
      List.Forall₂ (fun (s : AssignmentRow) (a : Agent) =>
        s.agentRegion = a.region ∧ s.requestId = reqId ∧ s.agentId = a.id) asgs agents := by
  intro agents
  induction agents with
  | nil =>
    intro i obs asgs h
    unfold fanout at h
    cases h
    exact ⟨rfl, rfl, List.Forall₂.nil, List.Forall₂.nil⟩
  | cons a rest ih =>
    intro i obs asgs h
    unfold fanout at h
    split_ifs at h
    cases hrec : fanout msg reqId seed fail now rest (i + 1) with
    | error e => rw [hrec] at h; cases h
    | ok pr =>
      obtain ⟨obs2, asgs2⟩ := pr
      rw [hrec] at h
      cases h
      obtain ⟨l1, l2, f1, f2⟩ := ih hrec
      exact ⟨by simp [l1], by simp [l2],
        List.Forall₂.cons ⟨rfl, rfl⟩ f1, List.Forall₂.cons ⟨rfl, rfl, rfl⟩ f2⟩

theorem fanout_no_insert_fail {msg : TaskMessage} {reqId : UUID} {seed : Nat}
    {now : Nat} :
    ∀ (agents : List Agent) (i : Nat),
      ∃ pr, fanout msg reqId seed (some FailPoint.commitTx) now agents i = .ok pr := by
  intro agents
  induction agents with
  | nil => intro i; exact ⟨([], []), rfl⟩
  | cons a rest ih =>
    intro i
    obtain ⟨⟨obs2, asgs2⟩, hpr⟩ := ih (i + 1)
    refine ⟨(⟨seed + 2 * i, "hosts-check-" ++ a.region, msg, now⟩ :: obs2,
             ⟨seed + 2 * i + 1, reqId, a.id, a.region, seed + 2 * i⟩ :: asgs2), ?_⟩
    unfold fanout
    rw [hpr]
    simp

theorem selectAgentByRegion_region {agents : List Agent} {reg : String} {a : Agent}
    (h : selectAgentByRegion agents reg = some a) : a.region = reg := by
  unfold selectAgentByRegion at h
  have hmem : a ∈ agents.filter (fun x => x.region = reg) := by
    cases hf : agents.filter (fun x => x.region = reg) with
    | nil => rw [hf] at h; cases h
    | cons b l => rw [hf] at h; cases h; exact List.mem_cons_self _ _
  simpa using (List.mem_filter.mp hmem).2

/-- C4: on every successful dispatch, broadcast inserts exactly one outbox
row (topic `hosts-check-` plus the agent's region, payload the serialized
envelope) and one assignment per known agent; non-broadcast inserts
exactly one assignment whose `agentRegion` equals the client's region,
which is EU when the client IP is nil or unknown. -/
theorem c4_dispatch_fanout (db : DispatchDB) (env : DispatchEnv)
    (h : exceptOk (createRequest db env).2 = true) :
    (env.req.broadcast = true →
      ∃ obs asgs,
        (createRequest db env).1 =
          { requests := db.requests ++ [requestRowOf env],
            assignments := db.assignments ++ asgs,
            outbox := db.outbox ++ obs } ∧
        obs.length = env.agents.length ∧
        asgs.length = env.agents.length ∧
        List.Forall₂ (fun (m : DispatchOutboxRow) (a : Agent) =>
          m.topic = "hosts-check-" ++ a.region ∧ m.payload = taskEnvelopeOf env)
          obs env.agents ∧
        List.Forall₂ (fun (s : AssignmentRow) (a : Agent) =>
          s.agentRegion = a.region ∧ s.requestId = env.requestId ∧ s.agentId = a.id)
          asgs env.agents) ∧
    (env.req.broadcast = false →
      ∃ ob asg,
        (createRequest db env).1 =
          { requests := db.requests ++ [requestRowOf env],
            assignments := db.assignments ++ [asg],
            outbox := db.outbox ++ [ob] } ∧
        asg.agentRegion = (geoLookup env.ip).region ∧
        ob.topic = "hosts-check-" ++ (geoLookup env.ip).region ∧
        ob.payload = taskEnvelopeOf env) ∧
    (env.ip = none → (geoLookup env.ip).region = "EU") := by
  refine ⟨?_, ?_, fun h0 => by rw [h0]; rfl⟩
  · intro hb
    simp only [createRequest, hb, if_true] at h ⊢
    cases hf : fanout (taskEnvelopeOf env) env.requestId env.idSeed env.dbFail
        env.now env.agents 0 with
    | error e => rw [hf] at h; split_ifs at h <;> simp [exceptOk] at h
    | ok pr =>
      obtain ⟨obs, asgs⟩ := pr
      rw [hf] at h
      split_ifs at h ⊢ <;> try (simp [exceptOk] at h)
      obtain ⟨l1, l2, f1, f2⟩ := fanout_ok hf
      exact ⟨obs, asgs, rfl, l1, l2, f1, f2⟩
  · intro hb
    simp only [createRequest, hb, Bool.false_eq_true, if_false] at h ⊢
    cases hsel : selectAgentByRegion env.agents (geoLookup env.ip).region with
    | none => rw [hsel] at h; split_ifs at h <;> simp [exceptOk] at h
    | some agent =>
      rw [hsel] at h
      split_ifs at h ⊢ <;> try (simp [exceptOk] at h)
      exact ⟨_, _, rfl, selectAgentByRegion_region hsel, rfl, rfl⟩

/-- Witness for C4 at two concrete dispatches: a broadcast request fans out
to both known agents, and the non-broadcast request from a nil client IP
gets exactly one assignment in region EU. -/
theorem c4_dispatch_fanout_witness :
    exceptOk (createRequest emptyDispatchDB envBroadcast).2 = true ∧
    (createRequest emptyDispatchDB envBroadcast).1.outbox.length = 2 ∧
    (createRequest emptyDispatchDB envBroadcast).1.assignments.length = 2 ∧
    exceptOk (createRequest emptyDispatchDB envSingle).2 = true ∧
    (createRequest emptyDispatchDB envSingle).1.assignments.map
      (fun a => a.agentRegion) = ["EU"] := by
  have hB := c4_dispatch_fanout emptyDispatchDB envBroadcast (by rfl)
  have hS := c4_dispatch_fanout emptyDispatchDB envSingle (by rfl)
  obtain ⟨obs, asgs, heq, hl1, hl2, _, _⟩ := hB.1 rfl
  obtain ⟨ob, asg, heqS, hreg, _, _⟩ := hS.2.1 rfl
  refine ⟨rfl, ?_, ?_, rfl, ?_⟩
  · rw [heq]; simp only [List.length_append, hl1]; rfl
  · rw [heq]; simp only [List.length_append, hl2]; rfl
  · rw [heqS]
    have : (geoLookup envSingle.ip).region = "EU" := rfl
    simp [emptyDispatchDB, hreg, this]

/-- C5: whenever any step of the dispatch transaction fails (including the
commit), `CreateRequest` surfaces an error, and the rollback leaves the
database exactly as it was: no request row, no assignment, no outbox row
of the request is persisted. -/
theorem c5_dispatch_rollback (db : DispatchDB) (env : DispatchEnv) :
    (exceptOk (createRequest db env).2 = false → (createRequest db env).1 = db) ∧
    (env.dbFail = some FailPoint.commitTx →
      exceptOk (createRequest db env).2 = false) := by
  constructor
  · intro h
    by_cases hb : env.req.broadcast
    · simp only [createRequest, hb, if_true] at h ⊢
      cases hf : fanout (taskEnvelopeOf env) env.requestId env.idSeed env.dbFail
          env.now env.agents 0 with
      | error e => split_ifs <;> rfl
      | ok pr =>
        obtain ⟨obs, asgs⟩ := pr
        rw [hf] at h
        split_ifs at h ⊢ <;> first | rfl | simp [exceptOk] at h
    · simp only [createRequest, hb, Bool.false_eq_true, if_false] at h ⊢
      cases hsel : selectAgentByRegion env.agents (geoLookup env.ip).region with
      | none => split_ifs <;> rfl
      | some agent =>
        rw [hsel] at h
        split_ifs at h ⊢ <;> first | rfl | simp [exceptOk] at h
  · intro hc
    by_cases hb : env.req.broadcast
    · obtain ⟨⟨obs, asgs⟩, hf⟩ :=
        @fanout_no_insert_fail (taskEnvelopeOf env) env.requestId env.idSeed
          env.now env.agents 0
      simp [createRequest, hb, hc]
      rw [hf]
      simp [exceptOk]
    · simp [createRequest, hb, hc]
      cases hsel : selectAgentByRegion env.agents (geoLookup env.ip).region with
      | none => rfl
      | some agent => rfl

/-- Witness for C5 at a concrete dispatch whose commit step fails: the call
errors and the database is unchanged. -/
theorem c5_dispatch_rollback_witness :
    envCommitFail.dbFail = some FailPoint.commitTx ∧
    exceptOk (createRequest emptyDispatchDB envCommitFail).2 = false ∧
    (createRequest emptyDispatchDB envCommitFail).1 = emptyDispatchDB := by
  have h := c5_dispatch_rollback emptyDispatchDB envCommitFail
  have h2 := h.2 rfl
  exact ⟨rfl, h2, h.1 h2⟩

theorem exceptBind_ok {ε α β : Type} (a : α) (f : α → Except ε β) :
    (Except.ok a : Except ε α) >>= f = f a := rfl

/-- C8: the agent accepts `expectedStatusRange` as a bracketed string (any
string `parseRange2Int` accepts), as a two-element array, or absent (which
normalizes to 200..299; a parsed all-zero range is also replaced by that
default, which is what `effRange` captures), and the HTTP probe reports
`ok = true` exactly when the final response status code lies within the
inclusive normalized range. -/
theorem c8_http_status_range (s : String) (a b : Int)
    (h : parseRange2Int s = .ok (a, b)) :
    (∀ jd : JsonDec, normalizeHTTP jd [] =
      .ok { scheme := "https", path := "/", headers := none,
            expectedStatusRange := (200, 299), followRedirects := false,
            maxBodyBytes := 0 }) ∧
    (∀ jd : JsonDec, normalizeHTTP jd [("expectedStatusRange", .jstr s)] =
      .ok { scheme := "https", path := "/", headers := none,
            expectedStatusRange := effRange a b, followRedirects := false,
            maxBodyBytes := 0 }) ∧
    (∀ (jd : JsonDec) (a2 b2 : Int),
      normalizeHTTP jd [("expectedStatusRange", .jarr [.jnum a2, .jnum b2])] =
      .ok { scheme := "https", path := "/", headers := none,
            expectedStatusRange := effRange a2 b2, followRedirects := false,
            maxBodyBytes := 0 }) ∧
    (∀ (tgt : String) (p : HTTPParams) (code : Int) (u : String)
        (tid : UUID) (i : Nat) (ty : String),
      (runHTTP tgt p (.resp code u) (makeResTemplate tid i ty tgt)).ok =
        (decide (p.expectedStatusRange.1 ≤ code) &&
         decide (code ≤ p.expectedStatusRange.2))) := by
  refine ⟨fun jd => rfl, ?_, ?_, fun tgt p code u tid i ty => rfl⟩
  · intro jd
    simp [normalizeHTTP, lookupP, setP, delP, getString, getHeaders, getRange2,
          getBool, getInt, h, effRange, List.find?, List.any, exceptBind_ok,
          List.mapM_cons, List.mapM_nil, List.mapM.loop, Option.bind]
  · intro jd a2 b2
    simp [normalizeHTTP, lookupP, setP, delP, getString, getHeaders, getRange2,
          getBool, getInt, toIntJ, effRange, List.find?, List.any, exceptBind_ok,
          List.mapM_cons, List.mapM_nil, List.mapM.loop, Option.bind]

/-- Witness for C8 at the literal string of the spec scenario: the string
form parses, normalizes to the 200..299 range, and the probe's success is
exactly in-range membership (250 in, 500 out). -/
theorem c8_http_status_range_witness :
    parseRange2Int "[200,299]" = Except.ok (200, 299) ∧
    normalizeHTTP jd0 [("expectedStatusRange", JVal.jstr "[200,299]")] = .ok hpDefault ∧
    (runHTTP "example.com" hpDefault (.resp 250 "u")
      (makeResTemplate 0 0 "http" "example.com")).ok = true ∧
    (runHTTP "example.com" hpDefault (.resp 500 "u")
      (makeResTemplate 0 0 "http" "example.com")).ok = false := by
  have h := c8_http_status_range "[200,299]" 200 299 (by rfl)
  refine ⟨by rfl, h.2.1 jd0, ?_, ?_⟩
  · exact (h.2.2.2 "example.com" hpDefault 250 "u" 0 0 "http").trans (by rfl)
  · exact (h.2.2.2 "example.com" hpDefault 500 "u" 0 0 "http").trans (by rfl)

/-- Witness for C10 at concrete lookups: a Singapore record (continent AS)
maps to APAC, and a North-American record (continent NA) falls to EU. -/
theorem c10_geo_lookup_region_witness :
    (geoLookup (some ⟨"1.2.3.4", some 7, some ("SG", "AS")⟩)).region = "APAC" ∧
    (geoLookup (some ⟨"9.9.9.9", none, some ("CA", "NA")⟩)).region = "EU" := by
  have h := c10_geo_lookup_region
  exact ⟨(h.1 (some ⟨"1.2.3.4", some 7, some ("SG", "AS")⟩)).trans (by rfl),
         (h.1 (some ⟨"9.9.9.9", none, some ("CA", "NA")⟩)).trans (by rfl)⟩

end DNSMatrix
